import Mathlib

/-!
Verification of the scoring/ranking core of the Auckland evacuation-center
Web-GIS system.

The quantitative core (criterion normalization, weighted MCDA scoring, dense
ranking, recommendation flag, weight validation) is invoked from
`site_evaluation_view` in `app.py`; its implementation lives in the component
module `src/components/decision_analyzer.py`, which is not part of the sources
available here, so those operations are modelled from the specification text
(each such definition is marked `Modelled from the spec:`).  The caching /
fingerprint logic, the weight sliders and their defaults, the weight-sum
warning and the CSV export are embedded directly from `app.py`.

Python floats are embedded as rationals (`ℚ`); pandas rows become explicit
records; Streamlit session state becomes an explicit `SessionState` record and
one rerun of `site_evaluation_view` becomes the pure step function
`site_evaluation_step`.
-/

deriving instance DecidableEq for Except

namespace EvacMCDA

/-- The fixed enumerated set of scoring criteria (spec §3, and the five
sliders of `site_evaluation_view`, app.py:317-322). -/
inductive Criterion where
  | population_density
  | accessibility
  | risk_level
  | facility_capacity
  | service_coverage
deriving DecidableEq, Repr

open Criterion

instance : Fintype Criterion :=
  ⟨⟨{population_density, accessibility, risk_level, facility_capacity,
     service_coverage}, by decide⟩, by intro c; cases c <;> decide⟩

/-- The criteria in the order the sliders build the weight dictionary
(app.py:318-322). -/
def allCriteria : List Criterion :=
  [population_density, accessibility, risk_level, facility_capacity,
   service_coverage]

/-- The string key used for each criterion in the Python weight dict. -/
def criterionName : Criterion → String
  | population_density => "population_density"
  | accessibility => "accessibility"
  | risk_level => "risk_level"
  | facility_capacity => "facility_capacity"
  | service_coverage => "service_coverage"

/-- Inverse of `criterionName`: recognize a weight-dict key. -/
def criterionOfName (k : String) : Option Criterion :=
  allCriteria.find? (fun c => criterionName c = k)

/-- One candidate site row.  Raw criterion values are optional: a missing
cell in the facility CSV is `none` (spec §3: each criterion is "a
non-negative real number or absent"). -/
structure Site where
  name : String
  latitude : ℚ
  longitude : ℚ
  raw : Criterion → Option ℚ
deriving DecidableEq

/-- Placeholder row used only as the default of out-of-range list lookups. -/
def defaultSite : Site := ⟨"", 0, 0, fun _ => none⟩

/-- Modelled from the spec: direction policy of `CriterionNormalizer`
(spec §4.2): every criterion except `risk_level` is higher-is-better. -/
def higherIsBetter : Criterion → Bool
  | risk_level => false
  | _ => true

/-- The non-missing raw values of a criterion across a batch; missing values
are excluded (spec §4.2). -/
def presentValues (batch : List Site) (c : Criterion) : List ℚ :=
  batch.filterMap (fun s => s.raw c)

/-- Minimum of a list of rationals (`none` on the empty list). -/
def listMin : List ℚ → Option ℚ
  | [] => none
  | x :: xs => some (xs.foldl min x)

/-- Maximum of a list of rationals (`none` on the empty list). -/
def listMax : List ℚ → Option ℚ
  | [] => none
  | x :: xs => some (xs.foldl max x)

/-- Modelled from the spec: min-max rescaling of one raw value, with the
direction policy and the zero-spread degenerate case of spec §4.2
(`max == min` gives the neutral value 0.5 for every site). -/
def normalizeValue (c : Criterion) (mn mx v : ℚ) : ℚ :=
  if mx = mn then 1 / 2
  else if higherIsBetter c then (v - mn) / (mx - mn)
  else (mx - v) / (mx - mn)

/-- Modelled from the spec: the `normalized_<criterion>` column of
`CriterionNormalizer.normalize` (spec §4.2).  A missing raw value is imputed
to the neutral 0.5 and never contributes to the batch min/max. -/
def normalizedCol (batch : List Site) (c : Criterion) (s : Site) : ℚ :=
  match s.raw c, listMin (presentValues batch c), listMax (presentValues batch c) with
  | some v, some mn, some mx => normalizeValue c mn mx v
  | _, _, _ => 1 / 2

/-- Modelled from the spec: `total_score` of `MCDAScorer` (spec §4.3):
the weighted sum of the normalized columns, weights taken literally. -/
def total_score_of (w : Criterion → ℚ) (batch : List Site) (s : Site) : ℚ :=
  (allCriteria.map (fun c => w c * normalizedCol batch c s)).sum

/-- The `total_score` column in input order. -/
def siteScores (w : Criterion → ℚ) (batch : List Site) : List ℚ :=
  batch.map (total_score_of w batch)

/-- Modelled from the spec: the strict priority order used for ranking
(spec §4.3): site `j` precedes site `i` when its score is strictly larger,
or on equal scores when it appears earlier in the input batch. -/
def beats (scores : List ℚ) (j i : ℕ) : Prop :=
  scores.getD i 0 < scores.getD j 0 ∨ (scores.getD j 0 = scores.getD i 0 ∧ j < i)

instance (scores : List ℚ) (j i : ℕ) : Decidable (beats scores j i) := by
  unfold beats; infer_instance

/-- Modelled from the spec: the dense 1-based rank of `MCDAScorer`
(spec §4.3): one plus the number of sites that strictly precede site `i`. -/
def rankOf (scores : List ℚ) (i : ℕ) : ℕ :=
  1 + ((Finset.range scores.length).filter (fun j => beats scores j i)).card

/-- One evaluated row: the input columns plus the derived
`normalized_*`, `total_score`, `rank` and `recommended` columns (spec §3). -/
structure EvaluatedSite where
  name : String
  latitude : ℚ
  longitude : ℚ
  raw : Criterion → Option ℚ
  normalized : Criterion → ℚ
  total_score : ℚ
  rank : ℕ
  recommended : Bool
deriving DecidableEq

/-- Placeholder evaluated row used only as the default of `List.getD`. -/
def defaultEvaluated : EvaluatedSite :=
  ⟨"", 0, 0, fun _ => none, fun _ => 0, 0, 0, false⟩

/-- Modelled from the spec: the evaluated row at input position `i`
(spec §4.3, recommendation threshold 0.6 from spec §6). -/
def evalAt (w : Criterion → ℚ) (batch : List Site) (i : ℕ) : EvaluatedSite :=
  let s := batch.getD i defaultSite
  { name := s.name
    latitude := s.latitude
    longitude := s.longitude
    raw := s.raw
    normalized := fun c => normalizedCol batch c s
    total_score := total_score_of w batch s
    rank := rankOf (siteScores w batch) i
    recommended := decide ((3 : ℚ) / 5 ≤ total_score_of w batch s) }

/-- Modelled from the spec: `SiteEvaluator.evaluate_sites` — normalize,
score, rank and flag every row of the batch (spec §4.5). -/
def evaluate_sites (w : Criterion → ℚ) (batch : List Site) : List EvaluatedSite :=
  (List.range batch.length).map (evalAt w batch)

theorem length_evaluate_sites (w : Criterion → ℚ) (batch : List Site) :
    (evaluate_sites w batch).length = batch.length := by
  simp [evaluate_sites]

/-- The slider default values of `site_evaluation_view` (app.py:318-322):
`st.session_state.get('mcda_weight_pop', 0.25)` etc., matching the documented
default vector of spec §4.1. -/
def default_weights : Criterion → ℚ
  | population_density => 25 / 100
  | accessibility => 20 / 100
  | risk_level => 15 / 100
  | facility_capacity => 20 / 100
  | service_coverage => 20 / 100

/-- The total weight `sum(current_weights.values())` of app.py:334. -/
def weightSum (w : Criterion → ℚ) : ℚ :=
  (allCriteria.map w).sum

/-- The weight-sum diagnostic of app.py:335: `st.warning` fires exactly when
`abs(total_weight - 1.0) > 0.01`; otherwise `st.success` is shown. -/
def sumWarning (w : Criterion → ℚ) : Bool :=
  decide ((1 : ℚ) / 100 < |weightSum w - 1|)

/-- The data fed to the cache fingerprint of app.py:424:
`str(sorted(current_weights.items()))`.  `sorted` on dict items orders the
five fixed keys alphabetically; the subsequent `md5(...).hexdigest()` is a
deterministic injective-in-practice function of this list, so the model keeps
the list itself as the fingerprint.  Note it is computed from
`current_weights` only — no dataset identity enters. -/
def weights_hash (w : Criterion → ℚ) : List (String × ℚ) :=
  [("accessibility", w accessibility),
   ("facility_capacity", w facility_capacity),
   ("population_density", w population_density),
   ("risk_level", w risk_level),
   ("service_coverage", w service_coverage)]

/-- The Streamlit session-state slots read and written by
`site_evaluation_view` (app.py:380-440): the loaded raw data, the name of the
file it came from, the single cached evaluation slot, and the fingerprint of
the weights that produced it. -/
structure SessionState where
  sites_data_for_evaluation : Option (List Site)
  selected_data_file : Option String
  evaluated_sites_for_view : Option (List EvaluatedSite)
  last_weights_hash : Option (List (String × ℚ))
deriving DecidableEq

/-- The empty session at the start of a fresh session. -/
def initialSession : SessionState := ⟨none, none, none, none⟩

/-- Outcome of one rerun of `site_evaluation_view`: the updated session
state, the evaluated table displayed (if any), and whether the scoring
computation was actually invoked on this rerun. -/
structure ViewResult where
  state : SessionState
  displayed : Option (List EvaluatedSite)
  recomputed : Bool
deriving DecidableEq

/-- The re-evaluation decision and cache update of app.py:424-440: compute
`weights_hash`, recompute when the cached slot is empty, the stored hash
differs, or no data is loaded; otherwise serve the stored evaluation without
invoking the scorer. -/
def evaluationStep (st : SessionState) (w : Criterion → ℚ) : ViewResult :=
  if st.evaluated_sites_for_view = none ∨
      st.last_weights_hash ≠ some (weights_hash w) ∨
      st.sites_data_for_evaluation = none then
    { state :=
        { st with
          evaluated_sites_for_view :=
            some (evaluate_sites w (st.sites_data_for_evaluation.getD []))
          last_weights_hash := some (weights_hash w) }
      displayed := some (evaluate_sites w (st.sites_data_for_evaluation.getD []))
      recomputed := true }
  else
    { state := st, displayed := st.evaluated_sites_for_view, recomputed := false }

/-- One rerun of the evaluation logic of `site_evaluation_view`
(app.py:380-440): reload the raw data when none is loaded or the selected
file changed (returning early with an error when the file is empty,
app.py:389-391), then run the cache-or-recompute step `evaluationStep`. -/
def site_evaluation_step (st : SessionState) (selectedFile : String)
    (loadFile : String → List Site) (w : Criterion → ℚ) : ViewResult :=
  if st.sites_data_for_evaluation = none ∨ st.selected_data_file ≠ some selectedFile then
    if loadFile selectedFile = [] then
      { state := st, displayed := none, recomputed := false }
    else
      evaluationStep
        { st with sites_data_for_evaluation := some (loadFile selectedFile),
                  selected_data_file := some selectedFile } w
  else
    evaluationStep st w

/-- Modelled from the spec: `WeightVector.validate` (spec §4.1 / §7): fails
with `InvalidWeightError` on a key outside the fixed criterion set or on a
negative weight (the non-finite case of the spec has no counterpart in `ℚ`,
where every value is finite); it performs no check on the sum. -/
def validate : List (String × ℚ) → Except String (List (Criterion × ℚ))
  | [] => .ok []
  | (k, v) :: rest =>
    match criterionOfName k with
    | none => .error ("InvalidWeightError: unknown criterion key " ++ k)
    | some c =>
      if v < 0 then .error ("InvalidWeightError: negative weight for " ++ k)
      else
        match validate rest with
        | .error e => .error e
        | .ok tail => .ok ((c, v) :: tail)

/-- Read a validated weight list back as a total weight function
(absent criteria weigh 0, spec §4.3). -/
def weightsOfList (l : List (Criterion × ℚ)) : Criterion → ℚ :=
  fun c => ((l.find? (fun p => p.1 = c)).map Prod.snd).getD 0

/-- Modelled from the spec: the facade path validate-then-score
(spec §4.5): scoring runs exactly when validation succeeds, on the
validated weights taken literally. -/
def evaluateChecked (rw : List (String × ℚ)) (batch : List Site) :
    Except String (List EvaluatedSite) :=
  match validate rw with
  | .error e => .error e
  | .ok wl => .ok (evaluate_sites (weightsOfList wl) batch)

/-- A Streamlit slider `st.slider(label, lo, hi, default, step)` returns a
value within its bounds whatever the interaction; the model clamps the
underlying interaction value into `[lo, hi]` (app.py:318-322 use bounds
`0.0, 1.0`). -/
def sliderValue (lo hi x : ℚ) : ℚ := max lo (min hi x)

/-- The `current_weights` dictionary built by the five sliders of
`site_evaluation_view` (app.py:317-322), keyed in insertion order. -/
def current_weights (inp : Criterion → ℚ) : List (String × ℚ) :=
  allCriteria.map (fun c => (criterionName c, sliderValue 0 1 (inp c)))

/-- Separator-joined concatenation of rows, modelling how `to_csv` writes
one record per line / one cell per comma (app.py:481). -/
def joinSep (sep : Char) : List (List Char) → List Char
  | [] => []
  | [r] => r
  | r :: r2 :: rs => r ++ sep :: joinSep sep (r2 :: rs)

/-- Splitting on a separator character, modelling how `read_csv` cuts a
re-imported export back into records and cells. -/
def splitSep (sep : Char) : List Char → List (List Char)
  | [] => [[]]
  | c :: cs =>
    if c = sep then [] :: splitSep sep cs
    else
      match splitSep sep cs with
      | [] => [[c]]
      | r :: rs => (c :: r) :: rs

/-- `evaluated_sites_display.to_csv(index=False)` (app.py:481) at the level
of rendered cells: cells joined by commas, records joined by newlines. -/
def toCsv (t : List (List (List Char))) : List Char :=
  joinSep (Char.ofNat 10) (t.map (joinSep ','))

/-- Re-import of a CSV export: split into lines, then each line into cells. -/
def fromCsv (s : List Char) : List (List (List Char)) :=
  (splitSep (Char.ofNat 10) s).map (splitSep ',')

/-- Decimal rendering of a rational cell value. -/
def renderRat (q : ℚ) : List Char :=
  (if q < 0 then ['-'] else []) ++
    Nat.toDigits 10 q.num.natAbs ++ '/' :: Nat.toDigits 10 q.den

/-- Rendering of an optional raw cell (a missing value exports as an empty
cell, as pandas writes NaN). -/
def renderCell : Option ℚ → List Char
  | none => []
  | some q => renderRat q

/-- Rendering of the boolean `recommended` column, as pandas writes bools. -/
def renderBool (b : Bool) : List Char :=
  if b then String.data "True" else String.data "False"

/-- The header row of the export: all original columns plus the derived
`normalized_*`, `total_score`, `rank` and `recommended` columns (spec §6). -/
def csvHeader : List (List Char) :=
  [String.data "name", String.data "latitude", String.data "longitude"] ++
    allCriteria.map (fun c => String.data (criterionName c)) ++
    allCriteria.map (fun c => String.data ("normalized_" ++ criterionName c)) ++
    [String.data "total_score", String.data "rank", String.data "recommended"]

/-- One evaluated row rendered to cells, in header order. -/
def renderRow (e : EvaluatedSite) : List (List Char) :=
  [e.name.data, renderRat e.latitude, renderRat e.longitude] ++
    allCriteria.map (fun c => renderCell (e.raw c)) ++
    allCriteria.map (fun c => renderRat (e.normalized c)) ++
    [renderRat e.total_score, Nat.toDigits 10 e.rank, renderBool e.recommended]

/-- The full rendered export table: header plus one row per evaluated site. -/
def exportTable (evs : List EvaluatedSite) : List (List (List Char)) :=
  csvHeader :: evs.map renderRow

/-- The CSV text produced by the export button (app.py:480-488). -/
def exportCsv (evs : List EvaluatedSite) : List Char :=
  toCsv (exportTable evs)

theorem beats_irrefl (s : List ℚ) (i : ℕ) : ¬ beats s i i := by
  rintro (h | ⟨-, h⟩)
  · exact lt_irrefl _ h
  · exact lt_irrefl _ h

theorem beats_trans {s : List ℚ} {a b c : ℕ}
    (h1 : beats s a b) (h2 : beats s b c) : beats s a c := by
  rcases h1 with h1 | ⟨he1, hl1⟩ <;> rcases h2 with h2 | ⟨he2, hl2⟩
  · exact Or.inl (lt_trans h2 h1)
  · exact Or.inl (he2 ▸ h1)
  · exact Or.inl (he1 ▸ h2)
  · exact Or.inr ⟨he2 ▸ he1, lt_trans hl1 hl2⟩

theorem beats_total {s : List ℚ} {i j : ℕ} (h : i ≠ j) :
    beats s i j ∨ beats s j i := by
  rcases lt_trichotomy (s.getD i 0) (s.getD j 0) with hlt | heq | hgt
  · exact Or.inr (Or.inl hlt)
  · rcases Nat.lt_or_ge i j with hij | hij
    · exact Or.inl (Or.inr ⟨heq, hij⟩)
    · exact Or.inr (Or.inr ⟨heq.symm, lt_of_le_of_ne hij (Ne.symm h)⟩)
  · exact Or.inl (Or.inl hgt)

theorem beats_asymm {s : List ℚ} {i j : ℕ}
    (h : beats s i j) (h' : beats s j i) : False :=
  beats_irrefl s i (beats_trans h h')

theorem rankOf_lt_rankOf {s : List ℚ} {i j : ℕ} (hi : i < s.length)
    (h : beats s i j) : rankOf s i < rankOf s j := by
  unfold rankOf
  have hsub : (Finset.range s.length).filter (fun k => beats s k i) ⊆
      (Finset.range s.length).filter (fun k => beats s k j) := by
    intro k hk
    rcases Finset.mem_filter.mp hk with ⟨hkr, hkb⟩
    exact Finset.mem_filter.mpr ⟨hkr, beats_trans hkb h⟩
  have hss : (Finset.range s.length).filter (fun k => beats s k i) ⊂
      (Finset.range s.length).filter (fun k => beats s k j) := by
    refine (Finset.ssubset_iff_of_subset hsub).mpr ⟨i, ?_, ?_⟩
    · exact Finset.mem_filter.mpr ⟨Finset.mem_range.mpr hi, h⟩
    · intro hmem
      exact beats_irrefl s i (Finset.mem_filter.mp hmem).2
  exact Nat.add_lt_add_left (Finset.card_lt_card hss) 1

theorem rankOf_lt_iff {s : List ℚ} {i j : ℕ} (hi : i < s.length)
    (hj : j < s.length) : rankOf s i < rankOf s j ↔ beats s i j := by
  constructor
  · intro hlt
    by_contra hnb
    rcases eq_or_ne i j with rfl | hne
    · exact lt_irrefl _ hlt
    · rcases beats_total hne with hb | hb
      · exact hnb hb
      · exact Nat.lt_asymm hlt (rankOf_lt_rankOf hj hb)
  · exact rankOf_lt_rankOf hi

theorem rankOf_inj {s : List ℚ} {i j : ℕ} (hi : i < s.length)
    (hj : j < s.length) (h : rankOf s i = rankOf s j) : i = j := by
  by_contra hne
  rcases beats_total hne with hb | hb
  · exact absurd h (Nat.ne_of_lt (rankOf_lt_rankOf hi hb))
  · exact absurd h.symm (Nat.ne_of_lt (rankOf_lt_rankOf hj hb))

theorem one_le_rankOf (s : List ℚ) (i : ℕ) : 1 ≤ rankOf s i :=
  Nat.le_add_right 1 _

theorem rankOf_le_length {s : List ℚ} {i : ℕ} (hi : i < s.length) :
    rankOf s i ≤ s.length := by
  unfold rankOf
  have hsub : (Finset.range s.length).filter (fun k => beats s k i) ⊆
      (Finset.range s.length).erase i := by
    intro k hk
    rcases Finset.mem_filter.mp hk with ⟨hkr, hkb⟩
    refine Finset.mem_erase.mpr ⟨?_, hkr⟩
    rintro rfl
    exact beats_irrefl s k hkb
  have hcard := Finset.card_le_card hsub
  rw [Finset.card_erase_of_mem (Finset.mem_range.mpr hi), Finset.card_range] at hcard
  omega

theorem image_rankOf (s : List ℚ) (hs : s ≠ []) :
    (Finset.range s.length).image (rankOf s) = Finset.Icc 1 s.length := by
  have hN : 0 < s.length := List.length_pos.mpr hs
  apply Finset.eq_of_subset_of_card_le
  · intro r hr
    rcases Finset.mem_image.mp hr with ⟨i, hi, rfl⟩
    exact Finset.mem_Icc.mpr ⟨one_le_rankOf s i, rankOf_le_length (Finset.mem_range.mp hi)⟩
  · rw [Finset.card_image_of_injOn, Finset.card_range, Nat.card_Icc]
    · omega
    · intro i hi j hj hij
      exact rankOf_inj (Finset.mem_range.mp (Finset.mem_coe.mp hi))
        (Finset.mem_range.mp (Finset.mem_coe.mp hj)) hij

theorem siteScores_length (w : Criterion → ℚ) (batch : List Site) :
    (siteScores w batch).length = batch.length := by
  simp [siteScores]

theorem siteScores_getD {w : Criterion → ℚ} {batch : List Site} {i : ℕ}
    (hi : i < batch.length) :
    (siteScores w batch).getD i 0 = total_score_of w batch (batch.getD i defaultSite) := by
  simp [siteScores, List.getD_eq_getElem?_getD, List.getElem?_map,
    List.getElem?_eq_getElem hi]

theorem evaluate_sites_getD {w : Criterion → ℚ} {batch : List Site} {i : ℕ}
    (hi : i < batch.length) :
    (evaluate_sites w batch).getD i defaultEvaluated = evalAt w batch i := by
  simp [evaluate_sites, List.getD_eq_getElem?_getD, List.getElem?_map,
    List.getElem?_range hi]

theorem splitSep_of_not_mem {sep : Char} {xs : List Char} (h : sep ∉ xs) :
    splitSep sep xs = [xs] := by
  induction xs with
  | nil => rfl
  | cons c cs ih =>
    have hc : ¬ c = sep := fun hcs => h (hcs ▸ List.mem_cons_self c cs)
    have hcs : sep ∉ cs := fun hm => h (List.mem_cons_of_mem c hm)
    simp [splitSep, hc, ih hcs]

theorem splitSep_append {sep : Char} {xs rest : List Char} (h : sep ∉ xs) :
    splitSep sep (xs ++ sep :: rest) = xs :: splitSep sep rest := by
  induction xs with
  | nil => simp [splitSep]
  | cons c cs ih =>
    have hc : ¬ c = sep := fun hcs => h (hcs ▸ List.mem_cons_self c cs)
    have hcs : sep ∉ cs := fun hm => h (List.mem_cons_of_mem c hm)
    simp only [List.cons_append, splitSep, hc, if_false, List.append_eq, ih hcs]

theorem not_mem_joinSep {sep c : Char} {rows : List (List Char)}
    (hc : c ≠ sep) (h : ∀ r ∈ rows, c ∉ r) : c ∉ joinSep sep rows := by
  induction rows with
  | nil => simp [joinSep]
  | cons r rs ih =>
    cases rs with
    | nil => simpa [joinSep] using h r (List.mem_cons_self r [])
    | cons r2 rs2 =>
      intro hmem
      rw [joinSep] at hmem
      rcases List.mem_append.mp hmem with hmem | hmem
      · exact h r (List.mem_cons_self r _) hmem
      · rcases List.mem_cons.mp hmem with hmem | hmem
        · exact hc hmem
        · exact ih (fun q hq => h q (List.mem_cons_of_mem r hq)) hmem

theorem splitSep_joinSep {sep : Char} {rows : List (List Char)}
    (hrows : rows ≠ []) (h : ∀ r ∈ rows, sep ∉ r) :
    splitSep sep (joinSep sep rows) = rows := by
  induction rows with
  | nil => exact absurd rfl hrows
  | cons r rs ih =>
    cases rs with
    | nil => simpa [joinSep] using splitSep_of_not_mem (h r (List.mem_cons_self r []))
    | cons r2 rs2 =>
      rw [joinSep, splitSep_append (h r (List.mem_cons_self r _)),
        ih (List.cons_ne_nil r2 rs2) (fun q hq => h q (List.mem_cons_of_mem r hq))]

theorem fromCsv_toCsv {t : List (List (List Char))} (ht : t ≠ [])
    (hrow : ∀ row ∈ t, row ≠ [])
    (hcell : ∀ row ∈ t, ∀ cell ∈ row, ',' ∉ cell ∧ Char.ofNat 10 ∉ cell) :
    fromCsv (toCsv t) = t := by
  have hne : t.map (joinSep ',') ≠ [] := by
    simpa using ht
  have hnl : ∀ r ∈ t.map (joinSep ','), Char.ofNat 10 ∉ r := by
    intro r hr
    rcases List.mem_map.mp hr with ⟨row, hrow, rfl⟩
    exact not_mem_joinSep (by decide) (fun cell hc => (hcell row hrow cell hc).2)
  rw [fromCsv, toCsv, splitSep_joinSep hne hnl, List.map_map]
  refine List.map_congr_left (fun row hr => ?_) |>.trans (List.map_id t)
  exact splitSep_joinSep (hrow row hr) (fun cell hc => (hcell row hr cell hc).1)

theorem evaluationStep_recompute {st : SessionState} {w : Criterion → ℚ}
    (h : st.evaluated_sites_for_view = none ∨
      st.last_weights_hash ≠ some (weights_hash w) ∨
      st.sites_data_for_evaluation = none) :
    evaluationStep st w =
      { state :=
          { st with
            evaluated_sites_for_view :=
              some (evaluate_sites w (st.sites_data_for_evaluation.getD []))
            last_weights_hash := some (weights_hash w) }
        displayed := some (evaluate_sites w (st.sites_data_for_evaluation.getD []))
        recomputed := true } := by
  unfold evaluationStep
  rw [if_pos h]

theorem evaluationStep_cached {st : SessionState} {w : Criterion → ℚ}
    (h : ¬ (st.evaluated_sites_for_view = none ∨
      st.last_weights_hash ≠ some (weights_hash w) ∨
      st.sites_data_for_evaluation = none)) :
    evaluationStep st w =
      { state := st, displayed := st.evaluated_sites_for_view, recomputed := false } := by
  unfold evaluationStep
  rw [if_neg h]

theorem evaluationStep_data (st : SessionState) (w : Criterion → ℚ) :
    (evaluationStep st w).state.sites_data_for_evaluation =
      st.sites_data_for_evaluation ∧
    (evaluationStep st w).state.selected_data_file = st.selected_data_file := by
  by_cases h : st.evaluated_sites_for_view = none ∨
      st.last_weights_hash ≠ some (weights_hash w) ∨
      st.sites_data_for_evaluation = none
  · rw [evaluationStep_recompute h]
    exact ⟨rfl, rfl⟩
  · rw [evaluationStep_cached h]
    exact ⟨rfl, rfl⟩

theorem evaluationStep_stable {st : SessionState} (w : Criterion → ℚ)
    (hd : st.sites_data_for_evaluation ≠ none) :
    evaluationStep (evaluationStep st w).state w =
      { state := (evaluationStep st w).state
        displayed := (evaluationStep st w).displayed
        recomputed := false } := by
  by_cases h : st.evaluated_sites_for_view = none ∨
      st.last_weights_hash ≠ some (weights_hash w) ∨
      st.sites_data_for_evaluation = none
  · rw [evaluationStep_recompute h]
    rw [evaluationStep_cached (by simp [hd])]
  · rw [evaluationStep_cached h]
    rw [evaluationStep_cached h]

theorem step_reload_empty {st : SessionState} {f : String}
    {loadFile : String → List Site} {w : Criterion → ℚ}
    (h1 : st.sites_data_for_evaluation = none ∨ st.selected_data_file ≠ some f)
    (h2 : loadFile f = []) :
    site_evaluation_step st f loadFile w =
      { state := st, displayed := none, recomputed := false } := by
  unfold site_evaluation_step
  rw [if_pos h1, if_pos h2]

theorem step_reload {st : SessionState} {f : String}
    {loadFile : String → List Site} {w : Criterion → ℚ}
    (h1 : st.sites_data_for_evaluation = none ∨ st.selected_data_file ≠ some f)
    (h2 : ¬ loadFile f = []) :
    site_evaluation_step st f loadFile w =
      evaluationStep
        { st with sites_data_for_evaluation := some (loadFile f),
                  selected_data_file := some f } w := by
  unfold site_evaluation_step
  rw [if_pos h1, if_neg h2]

theorem step_noreload {st : SessionState} {f : String}
    {loadFile : String → List Site} {w : Criterion → ℚ}
    (h1 : ¬ (st.sites_data_for_evaluation = none ∨ st.selected_data_file ≠ some f)) :
    site_evaluation_step st f loadFile w = evaluationStep st w := by
  unfold site_evaluation_step
  rw [if_neg h1]

theorem site_evaluation_step_twice (st : SessionState) (f : String)
    (loadFile : String → List Site) (w : Criterion → ℚ) :
    site_evaluation_step (site_evaluation_step st f loadFile w).state f loadFile w =
      { state := (site_evaluation_step st f loadFile w).state
        displayed := (site_evaluation_step st f loadFile w).displayed
        recomputed := false } := by
  by_cases hreload : st.sites_data_for_evaluation = none ∨
      st.selected_data_file ≠ some f
  · by_cases hload : loadFile f = []
    · rw [step_reload_empty hreload hload]
      rw [step_reload_empty hreload hload]
    · rw [step_reload hreload hload]
      set st1 : SessionState :=
        { st with sites_data_for_evaluation := some (loadFile f),
                  selected_data_file := some f } with hst1
      have hdata := evaluationStep_data st1 w
      have hnoreload :
          ¬ ((evaluationStep st1 w).state.sites_data_for_evaluation = none ∨
             (evaluationStep st1 w).state.selected_data_file ≠ some f) := by
        rw [hdata.1, hdata.2]
        simp [hst1]
      rw [step_noreload hnoreload]
      exact evaluationStep_stable w (by simp [hst1])
  · push_neg at hreload
    have hout : ¬ (st.sites_data_for_evaluation = none ∨
        st.selected_data_file ≠ some f) := by
      simp [hreload.1, hreload.2]
    rw [step_noreload hout]
    have hdata := evaluationStep_data st w
    have hnoreload :
        ¬ ((evaluationStep st w).state.sites_data_for_evaluation = none ∨
           (evaluationStep st w).state.selected_data_file ≠ some f) := by
      rw [hdata.1, hdata.2]
      simp [hreload.1, hreload.2]
    rw [step_noreload hnoreload]
    exact evaluationStep_stable w hreload.1

theorem step_recomputed_state {st : SessionState} {f : String}
    {loadFile : String → List Site} {w : Criterion → ℚ}
    (hrec : (site_evaluation_step st f loadFile w).recomputed = true) :
    (site_evaluation_step st f loadFile w).state.evaluated_sites_for_view =
      (site_evaluation_step st f loadFile w).displayed ∧
    (site_evaluation_step st f loadFile w).displayed ≠ none ∧
    (site_evaluation_step st f loadFile w).state.last_weights_hash =
      some (weights_hash w) ∧
    (site_evaluation_step st f loadFile w).state.sites_data_for_evaluation ≠ none := by
  by_cases hreload : st.sites_data_for_evaluation = none ∨
      st.selected_data_file ≠ some f
  · by_cases hload : loadFile f = []
    · rw [step_reload_empty hreload hload] at hrec
      exact absurd hrec (by simp)
    · rw [step_reload hreload hload] at hrec ⊢
      set st1 : SessionState :=
        { st with sites_data_for_evaluation := some (loadFile f),
                  selected_data_file := some f } with hst1
      by_cases hneed : st1.evaluated_sites_for_view = none ∨
          st1.last_weights_hash ≠ some (weights_hash w) ∨
          st1.sites_data_for_evaluation = none
      · rw [evaluationStep_recompute hneed]
        exact ⟨rfl, by simp, rfl, by simp [hst1]⟩
      · rw [evaluationStep_cached hneed] at hrec
        exact absurd hrec (by simp)
  · push_neg at hreload
    rw [step_noreload (by simp [hreload.1, hreload.2])] at hrec ⊢
    by_cases hneed : st.evaluated_sites_for_view = none ∨
        st.last_weights_hash ≠ some (weights_hash w) ∨
        st.sites_data_for_evaluation = none
    · rw [evaluationStep_recompute hneed]
      refine ⟨rfl, by simp, rfl, ?_⟩
      simpa using hreload.1
    · rw [evaluationStep_cached hneed] at hrec
      exact absurd hrec (by simp)

theorem step_cached_serve {st : SessionState} {f : String}
    {loadFile : String → List Site} {w : Criterion → ℚ}
    (he : st.evaluated_sites_for_view ≠ none)
    (hh : st.last_weights_hash = some (weights_hash w))
    (hd : st.sites_data_for_evaluation ≠ none)
    (hB : ¬ loadFile f = []) :
    (site_evaluation_step st f loadFile w).recomputed = false ∧
    (site_evaluation_step st f loadFile w).displayed =
      st.evaluated_sites_for_view := by
  by_cases hreload : st.sites_data_for_evaluation = none ∨
      st.selected_data_file ≠ some f
  · rw [step_reload hreload hB]
    rw [evaluationStep_cached (by simp [he, hh])]
    exact ⟨rfl, rfl⟩
  · rw [step_noreload hreload]
    rw [evaluationStep_cached (by simp [he, hh, hd])]
    exact ⟨rfl, rfl⟩

/-- Core of the (amended) cache behavior: after a request that recomputed,
any follow-up request with the same weights is answered from the cached slot
without recomputation, regardless of which (loadable) dataset file is now
selected, because the fingerprint is computed from the weights alone. -/
theorem step_same_weights_served {st : SessionState} {fA fB : String}
    {loadFile : String → List Site} {w : Criterion → ℚ}
    (hrec : (site_evaluation_step st fA loadFile w).recomputed = true)
    (hB : loadFile fB ≠ []) :
    (site_evaluation_step (site_evaluation_step st fA loadFile w).state fB
        loadFile w).recomputed = false ∧
    (site_evaluation_step (site_evaluation_step st fA loadFile w).state fB
        loadFile w).displayed =
      (site_evaluation_step st fA loadFile w).displayed := by
  rcases step_recomputed_state hrec with ⟨hev, hne, hh, hd⟩
  have := @step_cached_serve (site_evaluation_step st fA loadFile w).state fB
    loadFile w (hev ▸ hne) hh hd hB
  rw [hev] at this
  exact this

theorem higherIsBetter_of_ne {c : Criterion} (h : c ≠ risk_level) :
    higherIsBetter c = true := by
  cases c <;> first | rfl | exact absurd rfl h

theorem evalAt_rank (w : Criterion → ℚ) (batch : List Site) (i : ℕ) :
    (evalAt w batch i).rank = rankOf (siteScores w batch) i := rfl

theorem evalAt_total_score (w : Criterion → ℚ) (batch : List Site) (i : ℕ) :
    (evalAt w batch i).total_score =
      total_score_of w batch (batch.getD i defaultSite) := rfl

theorem criterionOfName_name : ∀ c : Criterion,
    criterionOfName (criterionName c) = some c := by decide

theorem sliderValue_nonneg (hi x : ℚ) : 0 ≤ sliderValue 0 hi x :=
  le_max_left 0 _

theorem sliderValue_le (hi x : ℚ) (h : 0 ≤ hi) : sliderValue 0 hi x ≤ hi :=
  max_le h (min_le_left _ _)

theorem validate_current_weights (inp : Criterion → ℚ) :
    validate (current_weights inp) =
      .ok (allCriteria.map (fun c => (c, sliderValue 0 1 (inp c)))) := by
  have h : ∀ c : Criterion, ¬ sliderValue 0 1 (inp c) < 0 :=
    fun c => not_lt.mpr (sliderValue_nonneg 1 (inp c))
  simp only [current_weights, allCriteria, List.map]
  simp [validate, criterionOfName_name, h]

theorem presentValues_filter (batch : List Site) (c : Criterion) :
    presentValues (batch.filter (fun x => (x.raw c).isSome)) c =
      presentValues batch c := by
  induction batch with
  | nil => rfl
  | cons s rest ih =>
    cases h : s.raw c with
    | none => simpa [presentValues, List.filter_cons, List.filterMap_cons, h] using ih
    | some v => simpa [presentValues, List.filter_cons, List.filterMap_cons, h] using ih

/-- Concrete fixtures used by the witnesses and counterexamples below. -/
def cexSiteA : Site := ⟨"A", 1, 2, fun _ => some 1⟩

def cexSiteB1 : Site := ⟨"B1", 3, 4, fun _ => some 2⟩

def cexSiteB2 : Site := ⟨"B2", 5, 6, fun _ => some 3⟩

/-- A data directory with two facility files holding different datasets. -/
def cexLoad : String → List Site :=
  fun f => if f = "a.csv" then [cexSiteA] else [cexSiteB1, cexSiteB2]

/-- A site carrying only a `population_density` value of 1. -/
def wSite1 : Site :=
  ⟨"s1", 0, 0, fun c => if c = population_density then some 1 else none⟩

/-- A site carrying only a `population_density` value of 3. -/
def wSite2 : Site :=
  ⟨"s2", 0, 0, fun c => if c = population_density then some 3 else none⟩

/-- A weight dictionary whose values sum to 2 (far from 1). -/
def cexRawWeights : List (String × ℚ) :=
  [("population_density", 2 / 5), ("accessibility", 2 / 5),
   ("risk_level", 2 / 5), ("facility_capacity", 2 / 5),
   ("service_coverage", 2 / 5)]

/-- The validated form of `cexRawWeights`. -/
def cexWl : List (Criterion × ℚ) :=
  [(population_density, 2 / 5), (accessibility, 2 / 5), (risk_level, 2 / 5),
   (facility_capacity, 2 / 5), (service_coverage, 2 / 5)]

/-- C3: a site is flagged recommended iff its `total_score` is at least the
fixed threshold 0.6, for every site of every evaluated batch. -/
theorem recommended_iff_threshold (w : Criterion → ℚ) (batch : List Site)
    (e : EvaluatedSite) (he : e ∈ evaluate_sites w batch) :
    e.recommended = true ↔ (0.6 : ℚ) ≤ e.total_score := by
  rcases List.mem_map.mp he with ⟨i, -, rfl⟩
  rw [show (evalAt w batch i).recommended =
      decide ((3 : ℚ) / 5 ≤ (evalAt w batch i).total_score) from rfl,
    decide_eq_true_iff]
  norm_num

/-- C3 witness: the single evaluated site of a one-site batch instantiates
the threshold equivalence. -/
theorem recommended_iff_threshold_witness :
    evalAt default_weights [cexSiteA] 0 ∈ evaluate_sites default_weights [cexSiteA] ∧
    ((evalAt default_weights [cexSiteA] 0).recommended = true ↔
      (0.6 : ℚ) ≤ (evalAt default_weights [cexSiteA] 0).total_score) :=
  ⟨List.mem_map.mpr ⟨0, List.mem_range.mpr Nat.zero_lt_one, rfl⟩,
    recommended_iff_threshold default_weights [cexSiteA] _
      (List.mem_map.mpr ⟨0, List.mem_range.mpr Nat.zero_lt_one, rfl⟩)⟩

/-- C9: the default weight vector is exactly the documented one. -/
theorem default_weights_spec :
    default_weights population_density = (0.25 : ℚ) ∧
    default_weights accessibility = (0.20 : ℚ) ∧
    default_weights risk_level = (0.15 : ℚ) ∧
    default_weights facility_capacity = (0.20 : ℚ) ∧
    default_weights service_coverage = (0.20 : ℚ) := by
  refine ⟨?_, ?_, ?_, ?_, ?_⟩ <;> norm_num [default_weights]

/-- C10: every weight dictionary the slider interface can build has exactly
the five fixed criterion keys, every value within the slider bounds `[0,1]`,
and it always passes validation — the invalid-weight branch is unreachable
from this interface. -/
theorem slider_weights_always_valid (inp : Criterion → ℚ) :
    (current_weights inp).map Prod.fst =
      ["population_density", "accessibility", "risk_level",
       "facility_capacity", "service_coverage"] ∧
    (∀ p ∈ current_weights inp, 0 ≤ p.2 ∧ p.2 ≤ 1) ∧
    validate (current_weights inp) =
      .ok (allCriteria.map (fun c => (c, sliderValue 0 1 (inp c)))) := by
  refine ⟨rfl, ?_, validate_current_weights inp⟩
  intro p hp
  rcases List.mem_map.mp hp with ⟨c, -, rfl⟩
  exact ⟨sliderValue_nonneg 1 (inp c), sliderValue_le 1 (inp c) (by norm_num)⟩

/-- C10 witness: the slider interface with every slider pushed to its upper
bound still builds a valid five-key weight dictionary. -/
theorem slider_weights_always_valid_witness :
    (current_weights (fun _ => 1)).map Prod.fst =
      ["population_density", "accessibility", "risk_level",
       "facility_capacity", "service_coverage"] ∧
    (∀ p ∈ current_weights (fun _ => 1), 0 ≤ p.2 ∧ p.2 ≤ 1) ∧
    validate (current_weights (fun _ => 1)) =
      .ok (allCriteria.map (fun c => (c, sliderValue 0 1 1))) :=
  slider_weights_always_valid (fun _ => 1)

/-- C4: a weight sum far from 1 never fails or blocks evaluation — any
validated weight vector is scored with its literal values, and the
caller-facing diagnostic warns exactly when the sum deviates from 1 by more
than the tolerance 0.01. -/
theorem weight_sum_never_blocks (rw : List (String × ℚ)) (batch : List Site)
    (wl : List (Criterion × ℚ)) (hval : validate rw = .ok wl) :
    evaluateChecked rw batch = .ok (evaluate_sites (weightsOfList wl) batch) ∧
    (sumWarning (weightsOfList wl) = true ↔
      (0.01 : ℚ) < |weightSum (weightsOfList wl) - 1|) := by
  constructor
  · simp [evaluateChecked, hval]
  · rw [sumWarning, decide_eq_true_iff]
    norm_num

theorem validate_cexRawWeights : validate cexRawWeights = .ok cexWl := by
  have hneg : ¬ ((2 : ℚ) / 5 < 0) := by norm_num
  simp +decide [validate, cexRawWeights, cexWl, criterionOfName, criterionName,
    allCriteria, List.find?, hneg]

/-- C4 witness: a weight vector summing to 2 validates, triggers the
warning, and is still evaluated. -/
theorem weight_sum_never_blocks_witness :
    validate cexRawWeights = .ok cexWl ∧
    sumWarning (weightsOfList cexWl) = true ∧
    (evaluateChecked cexRawWeights [cexSiteA] =
        .ok (evaluate_sites (weightsOfList cexWl) [cexSiteA]) ∧
      (sumWarning (weightsOfList cexWl) = true ↔
        (0.01 : ℚ) < |weightSum (weightsOfList cexWl) - 1|)) :=
  ⟨validate_cexRawWeights,
    by
      rw [sumWarning, decide_eq_true_iff]
      have hsum : weightSum (weightsOfList cexWl) = 2 := by
        simp +decide [weightSum, weightsOfList, cexWl, allCriteria, List.find?]
        norm_num
      rw [hsum]
      norm_num,
    weight_sum_never_blocks cexRawWeights [cexSiteA] cexWl validate_cexRawWeights⟩

/-- C6: normalization follows the direction policy relative to the batch's
own per-criterion min and max: higher-is-better criteria use
`(v - min) / (max - min)` (batch maximum ↦ 1, batch minimum ↦ 0);
`risk_level` uses `(max - v) / (max - min)` (batch minimum ↦ 1,
batch maximum ↦ 0). -/
theorem normalization_direction_policy (batch : List Site) (c : Criterion)
    (s : Site) (mn mx : ℚ)
    (hmin : listMin (presentValues batch c) = some mn)
    (hmax : listMax (presentValues batch c) = some mx)
    (hne : mn ≠ mx) :
    (c ≠ risk_level → ∀ v, s.raw c = some v →
      normalizedCol batch c s = (v - mn) / (mx - mn)) ∧
    (c = risk_level → ∀ v, s.raw c = some v →
      normalizedCol batch c s = (mx - v) / (mx - mn)) ∧
    (c ≠ risk_level →
      (s.raw c = some mx → normalizedCol batch c s = 1) ∧
      (s.raw c = some mn → normalizedCol batch c s = 0)) ∧
    (c = risk_level →
      (s.raw c = some mn → normalizedCol batch c s = 1) ∧
      (s.raw c = some mx → normalizedCol batch c s = 0)) := by
  have hmxmn : mx - mn ≠ 0 := sub_ne_zero.mpr (Ne.symm hne)
  have hxy : mx ≠ mn := Ne.symm hne
  have hnorm : ∀ v, s.raw c = some v →
      normalizedCol batch c s = normalizeValue c mn mx v := by
    intro v hv
    simp [normalizedCol, hv, hmin, hmax]
  have hhib : ∀ v, c ≠ risk_level →
      normalizeValue c mn mx v = (v - mn) / (mx - mn) := by
    intro v hc
    simp [normalizeValue, hxy, higherIsBetter_of_ne hc]
  have hrisk : ∀ v, normalizeValue risk_level mn mx v = (mx - v) / (mx - mn) := by
    intro v
    simp [normalizeValue, hxy, higherIsBetter]
  refine ⟨?_, ?_, ?_, ?_⟩
  · intro hc v hv
    rw [hnorm v hv, hhib v hc]
  · rintro rfl v hv
    rw [hnorm v hv, hrisk v]
  · intro hc
    constructor
    · intro hv
      rw [hnorm mx hv, hhib mx hc, div_self hmxmn]
    · intro hv
      rw [hnorm mn hv, hhib mn hc, sub_self, zero_div]
  · rintro rfl
    constructor
    · intro hv
      rw [hnorm mn hv, hrisk mn, div_self hmxmn]
    · intro hv
      rw [hnorm mx hv, hrisk mx, sub_self, zero_div]

theorem presentValues_wSites :
    presentValues [wSite1, wSite2] population_density = [1, 3] := by
  simp +decide [presentValues, wSite1, wSite2]

theorem listMin_wSites :
    listMin (presentValues [wSite1, wSite2] population_density) = some 1 := by
  rw [presentValues_wSites]
  norm_num [listMin, min_def]

theorem listMax_wSites :
    listMax (presentValues [wSite1, wSite2] population_density) = some 3 := by
  rw [presentValues_wSites]
  norm_num [listMax, max_def]

/-- C6 witness: a two-site batch with population densities 1 and 3
instantiates the direction policy. -/
theorem normalization_direction_policy_witness :
    (population_density ≠ risk_level → ∀ v : ℚ,
      wSite2.raw population_density = some v →
      normalizedCol [wSite1, wSite2] population_density wSite2 =
        (v - 1) / (3 - 1)) ∧
    (population_density = risk_level → ∀ v : ℚ,
      wSite2.raw population_density = some v →
      normalizedCol [wSite1, wSite2] population_density wSite2 =
        (3 - v) / (3 - 1)) ∧
    (population_density ≠ risk_level →
      (wSite2.raw population_density = some 3 →
        normalizedCol [wSite1, wSite2] population_density wSite2 = 1) ∧
      (wSite2.raw population_density = some 1 →
        normalizedCol [wSite1, wSite2] population_density wSite2 = 0)) ∧
    (population_density = risk_level →
      (wSite2.raw population_density = some 1 →
        normalizedCol [wSite1, wSite2] population_density wSite2 = 1) ∧
      (wSite2.raw population_density = some 3 →
        normalizedCol [wSite1, wSite2] population_density wSite2 = 0)) :=
  normalization_direction_policy [wSite1, wSite2] population_density wSite2 1 3
    listMin_wSites listMax_wSites (by norm_num)

/-- C7: neutral imputation — a zero-spread criterion normalizes to 0.5 for
every site, a missing raw value normalizes to 0.5 for that site, and missing
values are excluded from the min/max computation (the min/max over the batch
equals the min/max over the sites that actually carry a value). -/
theorem neutral_imputation (batch : List Site) (c : Criterion) :
    (∀ m, listMin (presentValues batch c) = some m →
      listMax (presentValues batch c) = some m →
      ∀ s, normalizedCol batch c s = 1 / 2) ∧
    (∀ s : Site, s.raw c = none → normalizedCol batch c s = 1 / 2) ∧
    presentValues (batch.filter (fun x => (x.raw c).isSome)) c =
      presentValues batch c := by
  refine ⟨?_, ?_, presentValues_filter batch c⟩
  · intro m hminv hmaxv s
    cases hv : s.raw c with
    | none => simp [normalizedCol, hv]
    | some v => simp [normalizedCol, hv, hminv, hmaxv, normalizeValue]
  · intro s hv
    simp [normalizedCol, hv]

theorem presentValues_cexB1 :
    presentValues [cexSiteB1, cexSiteB1] population_density = [2, 2] := by
  simp +decide [presentValues, cexSiteB1]

theorem listMin_cexB1 :
    listMin (presentValues [cexSiteB1, cexSiteB1] population_density) = some 2 := by
  rw [presentValues_cexB1]
  norm_num [listMin, min_def]

theorem listMax_cexB1 :
    listMax (presentValues [cexSiteB1, cexSiteB1] population_density) = some 2 := by
  rw [presentValues_cexB1]
  norm_num [listMax, max_def]

/-- C7 witness: a zero-spread batch and a site with a missing value both
normalize to the neutral 0.5. -/
theorem neutral_imputation_witness :
    normalizedCol [cexSiteB1, cexSiteB1] population_density wSite2 = 1 / 2 ∧
    normalizedCol [cexSiteB1, cexSiteB1] accessibility wSite1 = 1 / 2 :=
  ⟨(neutral_imputation [cexSiteB1, cexSiteB1] population_density).1 2
      listMin_cexB1 listMax_cexB1 wSite2,
    (neutral_imputation [cexSiteB1, cexSiteB1] accessibility).2.1 wSite1
      (by simp +decide [wSite1])⟩

theorem list_toFinset_map {α β : Type} [DecidableEq α] [DecidableEq β]
    (l : List α) (f : α → β) : (l.map f).toFinset = l.toFinset.image f := by
  induction l with
  | nil => simp
  | cons a t ih => simp [ih]

theorem list_toFinset_range (n : ℕ) :
    (List.range n).toFinset = Finset.range n := by
  ext m
  simp [List.mem_toFinset, List.mem_range, Finset.mem_range]

/-- C5: for every non-empty batch of N sites the assigned ranks are exactly
the set `{1, ..., N}` with no duplicates, and rank order is descending
total-score order with ties broken by input position (the earlier site gets
the lower rank number). -/
theorem ranks_dense_permutation (w : Criterion → ℚ) (batch : List Site)
    (hbatch : batch ≠ []) :
    ((evaluate_sites w batch).map (fun e => e.rank)).Nodup ∧
    ((evaluate_sites w batch).map (fun e => e.rank)).toFinset =
      Finset.Icc 1 batch.length ∧
    (∀ i j, i < batch.length → j < batch.length →
      (((evaluate_sites w batch).getD i defaultEvaluated).rank <
        ((evaluate_sites w batch).getD j defaultEvaluated).rank ↔
        (((evaluate_sites w batch).getD j defaultEvaluated).total_score <
          ((evaluate_sites w batch).getD i defaultEvaluated).total_score ∨
        (((evaluate_sites w batch).getD i defaultEvaluated).total_score =
          ((evaluate_sites w batch).getD j defaultEvaluated).total_score ∧
          i < j)))) := by
  have hsl : (siteScores w batch).length = batch.length := siteScores_length w batch
  have hmap : (evaluate_sites w batch).map (fun e => e.rank) =
      (List.range batch.length).map (rankOf (siteScores w batch)) := by
    simp only [evaluate_sites, List.map_map]
    rfl
  have hsne : siteScores w batch ≠ [] := by
    simpa [siteScores] using hbatch
  refine ⟨?_, ?_, ?_⟩
  · rw [hmap]
    refine List.Nodup.map_on ?_ (List.nodup_range _)
    intro i hi j hj hij
    exact rankOf_inj (by rw [hsl]; exact List.mem_range.mp hi)
      (by rw [hsl]; exact List.mem_range.mp hj) hij
  · rw [hmap, list_toFinset_map, list_toFinset_range]
    have himg := image_rankOf (siteScores w batch) hsne
    rw [hsl] at himg
    exact himg
  · intro i j hi hj
    rw [evaluate_sites_getD hi, evaluate_sites_getD hj, evalAt_rank, evalAt_rank,
      evalAt_total_score, evalAt_total_score]
    rw [rankOf_lt_iff (by rw [hsl]; exact hi) (by rw [hsl]; exact hj)]
    unfold beats
    rw [siteScores_getD hi, siteScores_getD hj]

/-- C5 witness: a concrete two-site batch instantiates the rank-permutation
and rank-order properties. -/
theorem ranks_dense_permutation_witness :
    ([wSite1, wSite2] : List Site) ≠ [] ∧
    (((evaluate_sites default_weights [wSite1, wSite2]).map
        (fun e => e.rank)).Nodup ∧
      ((evaluate_sites default_weights [wSite1, wSite2]).map
        (fun e => e.rank)).toFinset =
        Finset.Icc 1 ([wSite1, wSite2] : List Site).length ∧
      (∀ i j, i < ([wSite1, wSite2] : List Site).length →
        j < ([wSite1, wSite2] : List Site).length →
        (((evaluate_sites default_weights [wSite1, wSite2]).getD i
            defaultEvaluated).rank <
          ((evaluate_sites default_weights [wSite1, wSite2]).getD j
            defaultEvaluated).rank ↔
          (((evaluate_sites default_weights [wSite1, wSite2]).getD j
              defaultEvaluated).total_score <
            ((evaluate_sites default_weights [wSite1, wSite2]).getD i
              defaultEvaluated).total_score ∨
          (((evaluate_sites default_weights [wSite1, wSite2]).getD i
              defaultEvaluated).total_score =
            ((evaluate_sites default_weights [wSite1, wSite2]).getD j
              defaultEvaluated).total_score ∧ i < j))))) :=
  ⟨by simp, ranks_dense_permutation default_weights [wSite1, wSite2] (by simp)⟩

/-- C2: evaluation is deterministic and cache-idempotent — re-running the
evaluation view with identical selected file, loader and weights displays the
identical evaluated table and is served from the single cached slot without
invoking the scoring computation a second time. -/
theorem evaluation_deterministic_idempotent (st : SessionState) (f : String)
    (loadFile : String → List Site) (w : Criterion → ℚ) :
    (site_evaluation_step (site_evaluation_step st f loadFile w).state f
        loadFile w).displayed =
      (site_evaluation_step st f loadFile w).displayed ∧
    (site_evaluation_step (site_evaluation_step st f loadFile w).state f
        loadFile w).recomputed = false := by
  rw [site_evaluation_step_twice]
  exact ⟨rfl, rfl⟩

theorem cexLoad_a : cexLoad "a.csv" = [cexSiteA] := by
  simp [cexLoad]

theorem cexLoad_b : cexLoad "b.csv" = [cexSiteB1, cexSiteB2] := by
  simp +decide [cexLoad]

theorem cex_first_step :
    site_evaluation_step initialSession "a.csv" cexLoad default_weights =
      { state :=
          { sites_data_for_evaluation := some [cexSiteA]
            selected_data_file := some "a.csv"
            evaluated_sites_for_view :=
              some (evaluate_sites default_weights [cexSiteA])
            last_weights_hash := some (weights_hash default_weights) }
        displayed := some (evaluate_sites default_weights [cexSiteA])
        recomputed := true } := by
  rw [step_reload (Or.inl rfl) (by rw [cexLoad_a]; simp),
    evaluationStep_recompute (Or.inl rfl), cexLoad_a]
  rfl

theorem cex_second_step :
    site_evaluation_step
        (site_evaluation_step initialSession "a.csv" cexLoad
          default_weights).state "b.csv" cexLoad default_weights =
      { state :=
          { sites_data_for_evaluation := some [cexSiteB1, cexSiteB2]
            selected_data_file := some "b.csv"
            evaluated_sites_for_view :=
              some (evaluate_sites default_weights [cexSiteA])
            last_weights_hash := some (weights_hash default_weights) }
        displayed := some (evaluate_sites default_weights [cexSiteA])
        recomputed := false } := by
  rw [cex_first_step]
  rw [step_reload (Or.inr (by simp +decide)) (by rw [cexLoad_b]; simp),
    cexLoad_b, evaluationStep_cached (by simp)]

/-- C1 counterexample: two requests with identical weights but different
underlying datasets (`a.csv` with one site, `b.csv` with two different
sites) get the same fingerprint, and the second request is served the cached
result computed for the first dataset without recomputation — even though
evaluating the second dataset would give a different result. -/
theorem fingerprint_ignores_dataset_cex :
    weights_hash default_weights = weights_hash default_weights ∧
    cexLoad "a.csv" ≠ cexLoad "b.csv" ∧
    (site_evaluation_step
        (site_evaluation_step initialSession "a.csv" cexLoad
          default_weights).state "b.csv" cexLoad default_weights).recomputed =
      false ∧
    (site_evaluation_step
        (site_evaluation_step initialSession "a.csv" cexLoad
          default_weights).state "b.csv" cexLoad default_weights).displayed =
      some (evaluate_sites default_weights (cexLoad "a.csv")) ∧
    evaluate_sites default_weights (cexLoad "a.csv") ≠
      evaluate_sites default_weights (cexLoad "b.csv") := by
  refine ⟨rfl, ?_, ?_, ?_, ?_⟩
  · rw [cexLoad_a, cexLoad_b]
    simp
  · rw [cex_second_step]
  · rw [cex_second_step, cexLoad_a]
  · intro h
    have hlen := congrArg List.length h
    rw [length_evaluate_sites, length_evaluate_sites, cexLoad_a, cexLoad_b]
      at hlen
    simp at hlen

/-- C1 (amended): the cache fingerprint of app.py:424 is a deterministic
hash of the sorted (criterion, weight) pairs only; it carries no dataset
identity token, so two requests with identical weights always share a
fingerprint, and after a recomputation any follow-up request with the same
weights is served the cached result regardless of which (loadable) dataset
file is selected. -/
theorem fingerprint_weights_only :
    (∀ w w' : Criterion → ℚ, (∀ c, w c = w' c) →
      weights_hash w = weights_hash w') ∧
    (∀ (st : SessionState) (fA fB : String) (loadFile : String → List Site)
        (w : Criterion → ℚ),
      (site_evaluation_step st fA loadFile w).recomputed = true →
      loadFile fB ≠ [] →
      (site_evaluation_step (site_evaluation_step st fA loadFile w).state fB
          loadFile w).recomputed = false ∧
      (site_evaluation_step (site_evaluation_step st fA loadFile w).state fB
          loadFile w).displayed =
        (site_evaluation_step st fA loadFile w).displayed) := by
  constructor
  · intro w w' h
    simp [weights_hash, h]
  · intro st fA fB loadFile w hrec hB
    exact step_same_weights_served hrec hB

/-- C1 (amended) witness: the concrete two-dataset scenario instantiates the
weights-only fingerprint and the cached serving across a dataset switch. -/
theorem fingerprint_weights_only_witness :
    weights_hash default_weights = weights_hash default_weights ∧
    (site_evaluation_step initialSession "a.csv" cexLoad
      default_weights).recomputed = true ∧
    cexLoad "b.csv" ≠ [] ∧
    ((site_evaluation_step
        (site_evaluation_step initialSession "a.csv" cexLoad
          default_weights).state "b.csv" cexLoad default_weights).recomputed =
      false ∧
    (site_evaluation_step
        (site_evaluation_step initialSession "a.csv" cexLoad
          default_weights).state "b.csv" cexLoad default_weights).displayed =
      (site_evaluation_step initialSession "a.csv" cexLoad
        default_weights).displayed) :=
  ⟨fingerprint_weights_only.1 default_weights default_weights (fun _ => rfl),
    by rw [cex_first_step],
    by rw [cexLoad_b]; simp,
    fingerprint_weights_only.2 initialSession "a.csv" "b.csv" cexLoad
      default_weights (by rw [cex_first_step]) (by rw [cexLoad_b]; simp)⟩

/-- C8: the CSV export of an evaluated batch — whose cells contain neither
the comma nor the newline separator — re-imports to exactly the exported
table: one header row listing all original columns plus the derived
`normalized_*`, `total_score`, `rank` and `recommended` columns, followed by
one row per evaluated site, with no re-evaluation involved. -/
theorem export_import_identity (evs : List EvaluatedSite)
    (hcell : ∀ row ∈ exportTable evs, ∀ cell ∈ row,
      ',' ∉ cell ∧ Char.ofNat 10 ∉ cell) :
    fromCsv (exportCsv evs) = exportTable evs ∧
    (exportTable evs).headD [] = csvHeader ∧
    (exportTable evs).length = evs.length + 1 := by
  refine ⟨?_, rfl, by simp [exportTable]⟩
  have hrow : ∀ row ∈ exportTable evs, row ≠ [] := by
    intro row hr
    rcases List.mem_cons.mp hr with rfl | hr
    · simp [csvHeader]
    · rcases List.mem_map.mp hr with ⟨e, -, rfl⟩
      simp [renderRow]
  exact fromCsv_toCsv (by simp [exportTable]) hrow hcell

/-- A concrete evaluated row with integral cell values. -/
def cexEval : EvaluatedSite :=
  ⟨"A", 1, 0, fun _ => some 1, fun _ => 1, 1, 1, true⟩

/-- C8 witness: the export of a one-row evaluated table satisfies the
separator-freedom hypothesis and round-trips through re-import. -/
theorem export_import_identity_witness :
    (∀ row ∈ exportTable [cexEval], ∀ cell ∈ row,
      ',' ∉ cell ∧ Char.ofNat 10 ∉ cell) ∧
    (fromCsv (exportCsv [cexEval]) = exportTable [cexEval] ∧
      (exportTable [cexEval]).headD [] = csvHeader ∧
      (exportTable [cexEval]).length = [cexEval].length + 1) :=
  ⟨by decide, export_import_identity [cexEval] (by decide)⟩

end EvacMCDA
